import Mathlib

/-!
# MOSAIC tutoring core — verification of the specification against the code

Shallow embedding of the decision core of the MOSAIC tutoring agent:

* `src/agents/feedback_agent.py`  — `FeedbackAgent` (`give_feedback`,
  `_decide_next_action`, `_update_kg_node`);
* `src/kg/neo4j_client.py`        — `Neo4jClient` (`query`,
  `update_node_status`, `sync_mastery_from_letta`,
  `get_next_recommended_topic`, `map_concept_to_topic`,
  `get_prerequisite_chain_for_feedback`);
* `src/memory/letta_client.py`    — `LettaClient` (`get_mistake_history`,
  archival memory);
* `src/agents/orchestrator.py`    — `Orchestrator._classify`.

The curriculum graph lives in Neo4j; each Cypher query used by the core is
embedded by its relational meaning over an explicit list of nodes and
PREREQUISITE edges.  Statuses are the literal strings stored in the graph
(`grey, blue, yellow, green, red, orange`); the specification's vocabulary
maps onto them (`mastered` = `green`, unset = `grey`, ...).

Python-level behaviour that matters to the claims is modelled explicitly:

* `datetime.now()` is passed in as an explicit `now : String` argument;
* fallible external calls (the generative model, the semantic memory
  search) are oracle arguments, `Except Unit String` where the Python call
  may raise;
* CPython keyword-argument binding is modelled by `checkKwargs`, because
  `FeedbackAgent` passes a `kg=` keyword that the `Neo4jClient` method
  signatures do not accept, which raises `TypeError` at call time;
* Python string methods (`lower`, `upper`, `strip`, `startswith`, the `in`
  substring test) are implemented over `String.data` so that every
  definition evaluates by kernel reduction.
-/

namespace Mosaic

/-! ## Python string primitives -/

/-- Python `s.lower()`. -/
def pyLower (s : String) : String := String.mk (s.data.map Char.toLower)

/-- Python `s.upper()`. -/
def pyUpper (s : String) : String := String.mk (s.data.map Char.toUpper)

/-- Python `s.strip()`: drop whitespace from both ends. -/
def pyStrip (s : String) : String :=
  String.mk (((s.data.dropWhile Char.isWhitespace).reverse.dropWhile
    Char.isWhitespace).reverse)

/-- Python `s.startswith(pre)`. -/
def pyStartsWith (s pre : String) : Bool := pre.data.isPrefixOf s.data

/-- Substring search on character lists: does `needle` occur inside
`hay`? -/
def listContainsSub (hay needle : List Char) : Bool :=
  match hay with
  | [] => needle.isEmpty
  | _ :: t => needle.isPrefixOf hay || listContainsSub t needle

/-- Python `needle in hay` / Cypher `hay CONTAINS needle`. -/
def pyContains (hay needle : String) : Bool := listContainsSub hay.data needle.data

/-- Code-point lexicographic order on character lists, the order Cypher
`ORDER BY` uses on the stored name strings. -/
def listLe : List Char → List Char → Bool
  | [], _ => true
  | _ :: _, [] => false
  | a :: as, b :: bs =>
    if a.toNat < b.toNat then true
    else if b.toNat < a.toNat then false
    else listLe as bs

/-- Lexicographic order on strings (`ORDER BY t.name`). -/
def strLe (a b : String) : Bool := listLe a.data b.data

/-- Python truthiness of an optional string: `None` and `""` are falsy. -/
def pyTruthy (o : Option String) : Bool :=
  match o with
  | none => false
  | some s => !s.isEmpty

/-! ## Curriculum graph data model (`src/kg/neo4j_client.py`) -/

/-- Cypher `coalesce(x, d)` on an optional string property. -/
def coalesce (o : Option String) (d : String) : String := o.getD d

/-- Node labels appearing in the FODS curriculum KG. -/
inductive NodeLabel where
  | topic
  | technique
  deriving DecidableEq, Repr

/-- A node of the curriculum graph: `name`, label, and the optional
`status` / `mastered_at` / `updated_at` / `kg` properties
(`src/kg/neo4j_client.py`, class docstring). -/
structure KGNode where
  name        : String
  label       : NodeLabel
  status      : Option String
  mastered_at : Option String
  updated_at  : Option String
  kg          : Option String
  deriving DecidableEq, Repr

/-- The curriculum graph: nodes plus `PREREQUISITE` edges (pairs of node
names, source first). -/
structure Graph where
  nodes   : List KGNode
  prereqs : List (String × String)
  deriving DecidableEq, Repr

/-- Cypher `coalesce(n.kg, 'fods') = 'fods'` — membership in the FODS
curriculum KG. -/
def inFods (n : KGNode) : Bool := coalesce n.kg "fods" == "fods"

/-- `(n:Topic OR n:Technique)` — true of every node of this graph model,
kept for fidelity to the `MATCH` pattern. -/
def isTopicOrTechnique (n : KGNode) : Bool :=
  n.label == NodeLabel.topic || n.label == NodeLabel.technique

/-! ## `Neo4jClient.update_node_status` (src/kg/neo4j_client.py:87-102)

```
MATCH (n) WHERE (n:Topic OR n:Technique) AND n.name = $name
  AND coalesce(n.kg, 'fods') = 'fods'
SET n.status = $status, n.updated_at = $now
WITH n WHERE $status = 'green' AND n.mastered_at IS NULL
SET n.mastered_at = $now
```
-/

/-- Effect of `update_node_status` on a single node: if it matches the
`MATCH`/`WHERE` pattern, write `status` and `updated_at`; then, only when
the new status is `green` and `mastered_at` is null, latch `mastered_at`. -/
def updateNodeStatusNode (name status now : String) (n : KGNode) : KGNode :=
  if isTopicOrTechnique n && n.name == name && inFods n then
    let n1 := { n with status := some status, updated_at := some now }
    if status == "green" && n1.mastered_at == none then
      { n1 with mastered_at := some now }
    else n1
  else n

/-- `Neo4jClient.update_node_status(name, status)` over the whole graph,
with the wall-clock time `now` passed explicitly. -/
def update_node_status (g : Graph) (name status now : String) : Graph :=
  { g with nodes := g.nodes.map (updateNodeStatusNode name status now) }

/-! ## `Neo4jClient.sync_mastery_from_letta` (src/kg/neo4j_client.py:277-290)

One query per name in the input list:

```
MATCH (n) WHERE (n:Topic OR n:Technique) AND n.name = $name
  AND coalesce(n.kg, 'fods') = 'fods'
  AND coalesce(n.status, 'grey') <> 'green'
SET n.status = 'green', n.mastered_at = $ts, n.updated_at = $ts
```

with `$ts` the hard-coded sentinel `"2000-01-01T00:00:00+00:00"` — the
method signature takes no timestamp argument.
-/

/-- The hard-coded backfill timestamp `sentinel` of
`sync_mastery_from_letta`. -/
def lettaSentinel : String := "2000-01-01T00:00:00+00:00"

/-- Effect of one backfill query on a single node. -/
def syncNode (name : String) (n : KGNode) : KGNode :=
  if isTopicOrTechnique n && n.name == name && inFods n
      && coalesce n.status "grey" != "green" then
    { n with status := some "green", mastered_at := some lettaSentinel,
             updated_at := some lettaSentinel }
  else n

/-- One iteration of the `for name in mastered_concepts` loop. -/
def syncStep (g : Graph) (name : String) : Graph :=
  { g with nodes := g.nodes.map (syncNode name) }

/-- `Neo4jClient.sync_mastery_from_letta(mastered_concepts)`. -/
def sync_mastery_from_letta (g : Graph) (mastered_concepts : List String) : Graph :=
  mastered_concepts.foldl syncStep g

/-- The cumulative effect of the backfill loop on one node (the queries
touch disjoint fields of other nodes, so the loop is a per-node fold). -/
def syncFold (names : List String) (n : KGNode) : KGNode :=
  names.foldl (fun m name => syncNode name m) n

/-! ## `Neo4jClient.get_next_recommended_topic` (src/kg/neo4j_client.py:183-199)

```
MATCH (t:Topic)
WHERE coalesce(t.kg, 'fods') = 'fods'
  AND coalesce(t.status, 'grey') <> 'green'
  AND NOT EXISTS {
      MATCH (t)-[:PREREQUISITE]->(pre:Topic)
      WHERE coalesce(pre.status, 'grey') <> 'green' }
RETURN t.name as name ORDER BY t.name LIMIT 1
```

`ORDER BY t.name LIMIT 1` is embedded as the `strLe`-minimum of the
matched names.  `Neo4jClient.query` returns `[]` when the driver is
missing or the read raises, so the store is passed as `Option Graph`
(`none` = failed read); the `if results / return default` tail is
translated as written.
-/

/-- A direct prerequisite of `t` that is a Topic node and not green
(the `NOT EXISTS` subquery body). -/
def hasWeakDirectPrereq (g : Graph) (t : String) : Bool :=
  g.prereqs.any fun e =>
    e.1 == t && g.nodes.any fun m =>
      m.name == e.2 && m.label == NodeLabel.topic
        && coalesce m.status "grey" != "green"

/-- The `WHERE` clause of `get_next_recommended_topic` for one node. -/
def isRecommendCandidate (g : Graph) (n : KGNode) : Bool :=
  n.label == NodeLabel.topic && inFods n
    && coalesce n.status "grey" != "green"
    && !hasWeakDirectPrereq g n.name

/-- Names matched by the `get_next_recommended_topic` query. -/
def candidateNames (g : Graph) : List String :=
  (g.nodes.filter (isRecommendCandidate g)).map KGNode.name

/-- The documented fallback topic. -/
def defaultTopic : String := "Python for Data Science"

/-- `strLe`-minimum of a list of names (`ORDER BY ... LIMIT 1`). -/
def minName? : List String → Option String
  | [] => none
  | s :: rest =>
    some (match minName? rest with
      | none => s
      | some m => if strLe s m then s else m)

/-- `Neo4jClient.get_next_recommended_topic()`; `db = none` models a
missing driver or a read that raised (both make `query` return `[]`). -/
def get_next_recommended_topic (db : Option Graph) : String :=
  match db with
  | none => defaultTopic
  | some g =>
    match minName? (candidateNames g) with
    | none => defaultTopic
    | some m => m

/-! ## `Neo4jClient.map_concept_to_topic` (src/kg/neo4j_client.py:201-225)

Two queries: a case-insensitive two-way containment match over `Topic`
nodes (no kg filter), then over FODS `Technique` nodes; each `LIMIT 1`
takes the first matching node in row order, literally `None` if both
queries come back empty.
-/

/-- Case-insensitive two-way containment, `toLower(a) CONTAINS toLower(b)
OR toLower(b) CONTAINS toLower(a)`. -/
def nameMatches (a b : String) : Bool :=
  pyContains (pyLower a) (pyLower b) || pyContains (pyLower b) (pyLower a)

/-- `Neo4jClient.map_concept_to_topic(concept_name)`. -/
def map_concept_to_topic (g : Graph) (concept_name : String) : Option String :=
  match g.nodes.find? (fun t => t.label == NodeLabel.topic
      && nameMatches t.name concept_name) with
  | some t => some t.name
  | none =>
    match g.nodes.find? (fun t => t.label == NodeLabel.technique && inFods t
        && nameMatches t.name concept_name) with
    | some t => some t.name
    | none => none

/-! ## `Neo4jClient.get_prerequisite_chain_for_feedback` (src/kg/neo4j_client.py:125-133)

```
MATCH path = (t:Topic {name: $name})-[:PREREQUISITE*]->(pre:Topic)
RETURN pre.name as name, coalesce(pre.status, 'grey') as status,
       length(path) as depth
ORDER BY depth
```

One row per path; the unbounded `*` is embedded with path length bounded
by the node count (the curriculum is assumed to be a DAG, where no simple
path is longer).  Rows are produced level by level, so the result is
sorted by `depth` ascending as the `ORDER BY` demands.
-/

/-- A row of `get_prerequisite_chain_for_feedback`: prerequisite name,
`coalesce(status, 'grey')`, and hop distance (`length(path)`). -/
structure PrereqEntry where
  name   : String
  status : String
  depth  : Nat
  deriving DecidableEq, Repr

/-- Targets of PREREQUISITE edges leaving `u` (with path multiplicity). -/
def edgeTargetsFrom (g : Graph) (u : String) : List String :=
  (g.prereqs.filter fun e => e.1 == u).map Prod.snd

/-- Endpoints of all paths of length `d` starting at `t`, with one list
entry per path. -/
def chainLevel (g : Graph) (t : String) : Nat → List String
  | 0 => [t]
  | d + 1 => (chainLevel g t d).flatMap (edgeTargetsFrom g)

/-- The `pre:Topic` endpoint filter: the chain row for a path endpoint,
if that endpoint is a Topic node. -/
def topicRow (g : Graph) (depth : Nat) (p : String) : Option PrereqEntry :=
  match g.nodes.find? (fun m => m.name == p && m.label == NodeLabel.topic) with
  | some m => some ⟨m.name, coalesce m.status "grey", depth⟩
  | none => none

/-- `Neo4jClient.get_prerequisite_chain_for_feedback(topic_name)`. -/
def get_prerequisite_chain_for_feedback (g : Graph) (topic_name : String) :
    List PrereqEntry :=
  if g.nodes.any fun t => t.name == topic_name && t.label == NodeLabel.topic then
    (List.range g.nodes.length).flatMap fun d =>
      (chainLevel g topic_name (d + 1)).filterMap (topicRow g (d + 1))
  else []

/-! ## `Neo4jClient.query` failure handling (src/kg/neo4j_client.py:45-54)

```
if self.driver is None: return []
try: ... return [record.data() for record in result]
except Exception as e:
    print(f"Query error: ...")
    return []
```
-/

/-- The state of the Neo4j driver for one call: missing (`self.driver is
None`), raising, or healthy with the rows the query yields. -/
inductive Driver where
  | missing
  | failing
  | healthy (rows : List (List (String × String)))
  deriving DecidableEq, Repr

/-- What one `Neo4jClient.query` call produces: the value returned to the
caller and the lines printed to stdout. -/
structure QueryOutcome where
  rows : List (List (String × String))
  log  : List String
  deriving DecidableEq, Repr

/-- `Neo4jClient.query(cypher, params)`. -/
def query (d : Driver) : QueryOutcome :=
  match d with
  | Driver.missing => ⟨[], []⟩
  | Driver.failing => ⟨[], ["Query error"]⟩
  | Driver.healthy rows => ⟨rows, []⟩

/-- What a caller of `update_node_status` observes: the method discards
`self.query(...)` and returns `None` (here `Unit`), never an exception;
only the stdout log differs between outcomes. -/
def updateNodeStatusRun (d : Driver) : Unit × List String :=
  ((), (query d).log)

/-! ## `LettaClient` event records (src/memory/letta_client.py)

Archival memory holds JSON dicts.  The fields the core reads or writes
are modelled; fields a record type does not carry are `none`, matching
`dict.get` defaults.
-/

/-- An archival-memory record (`EventRecord`). -/
structure EventRecord where
  type           : String
  concept        : String
  passed         : Option Bool
  score          : Option Int
  topic          : Option String
  misconception  : Option String
  root_cause     : Option String
  attempt_number : Option Nat
  next_action    : Option String
  kg             : Option String
  deriving DecidableEq, Repr

/-- `LettaClient.get_mistake_history(student_id, concept)`
(src/memory/letta_client.py:207-218): filter the semantic-search results
by exact concept and `not r.get("passed", True)`.  The search itself is
an external semantic query (`limit=10`), passed in as `searchResults`. -/
def get_mistake_history (searchResults : List EventRecord) (concept : String) :
    List EventRecord :=
  searchResults.filter fun r => r.concept == concept && !(r.passed.getD true)

/-- The attempt number `FeedbackAgent.give_feedback` computes
(src/agents/feedback_agent.py:94-96):
`len(self.letta.get_mistake_history(student_id, concept)) + 1`. -/
def attemptNumber (searchResults : List EventRecord) (concept : String) : Nat :=
  (get_mistake_history searchResults concept).length + 1

/-- The records the specification's claim counts: prior **failed
`feedback_given`** records for the concept.  (Spec-side definition, for
comparison with `get_mistake_history`.) -/
def priorFailedFeedbackGiven (log : List EventRecord) (concept : String) :
    List EventRecord :=
  log.filter fun r =>
    r.type == "feedback_given" && r.concept == concept && r.passed == some false

/-! ## `FeedbackAgent` (src/agents/feedback_agent.py) -/

/-- The parsed `assessment_result` dict, with the `.get` defaults of
lines 84-88 already applied. -/
structure AssessmentResult where
  score          : Int
  passed         : Bool
  what_was_right : List String
  what_was_wrong : List String
  misconception  : String
  deriving DecidableEq, Repr

/--
```
if passed and score >= 90:   return "advance"
elif passed and score >= 70: return "practice_more"
else:                        return "re_teach"
```
(`FeedbackAgent._decide_next_action`, lines 214-234). -/
def decideNextAction (score : Int) (passed : Bool)
    (_attempt_count : Nat) (_weak_prereqs : List PrereqEntry) : String :=
  if passed && decide (score ≥ 90) then "advance"
  else if passed && decide (score ≥ 70) then "practice_more"
  else "re_teach"

/-- The weak-prerequisite filter of `give_feedback` (lines 100-103):
`p.get("status") in ["red", "orange", "grey", None]`.  The chain getter
coalesces null statuses to `"grey"`, so the `None` disjunct never fires;
`"blue"` and `"yellow"` are *not* weak here. -/
def weakStatusFilter (s : String) : Bool :=
  s == "red" || s == "orange" || s == "grey"

/-- `weak_prereqs = [p for p in prereq_chain if p.get("status") in [...]]`. -/
def weakPrereqsOf (prereq_chain : List PrereqEntry) : List PrereqEntry :=
  prereq_chain.filter fun p => weakStatusFilter p.status

/--
```
re_teach_focus = ( weak_prereqs[0]["name"] if weak_prereqs
                   else misconception      if misconception
                   else concept )
```
(lines 156-163; Python truthiness on the misconception string). -/
def chooseReTeachFocus (weak_prereqs : List PrereqEntry)
    (misconception concept : String) : String :=
  match weak_prereqs with
  | w :: _ => w.name
  | [] => if !misconception.isEmpty then misconception else concept

/-- The `re_teach_focus` give_feedback would compute from a prerequisite
chain: filter, then priority choice. -/
def reTeachFocusOf (prereq_chain : List PrereqEntry)
    (misconception concept : String) : String :=
  chooseReTeachFocus (weakPrereqsOf prereq_chain) misconception concept

/-! ### CPython keyword-argument binding

`FeedbackAgent.give_feedback` calls
`self.neo4j.map_concept_to_topic(concept, kg=kg)` (line 91) and
`_update_kg_node` calls `self.neo4j.update_node_status(..., kg=kg)`
(lines 256-270), but the `Neo4jClient` signatures are
`map_concept_to_topic(self, concept_name)` and
`update_node_status(self, name, status)` — no `kg` parameter and no
`**kwargs`.  CPython raises `TypeError: <f>() got an unexpected keyword
argument 'kg'` before the method body runs.
-/

/-- CPython binding check for the keyword arguments of a call: a keyword
that is not among the callee's parameter names raises `TypeError` before
the body runs. -/
def checkKwargs (method : String) (params : List String)
    (kwargs : List String) : Option String :=
  match kwargs.find? (fun k => !params.contains k) with
  | some k =>
    some ("TypeError: " ++ method ++ "() got an unexpected keyword argument " ++ k)
  | none => none

/-- The call `self.neo4j.map_concept_to_topic(concept, **kwargs)`:
keyword binding first, then the method body. -/
def callMapConceptToTopic (g : Graph) (concept : String)
    (kwargs : List String) : Except String (Option String) :=
  match checkKwargs "map_concept_to_topic" ["concept_name"] kwargs with
  | some err => Except.error err
  | none => Except.ok (map_concept_to_topic g concept)

/-- The call `self.neo4j.update_node_status(name, status, **kwargs)`. -/
def callUpdateNodeStatus (g : Graph) (name status now : String)
    (kwargs : List String) : Except String Graph :=
  match checkKwargs "update_node_status" ["name", "status"] kwargs with
  | some err => Except.error err
  | none => Except.ok (update_node_status g name status now)

/-- `FeedbackAgent._update_kg_node(topic, passed, score, attempt_count,
weak_prereqs, kg)` (lines 236-270): the verdict-colour branches, each
write going through the keyword-checked call with `kg=kg`. -/
def update_kg_node (g : Graph) (topic : String) (passed : Bool)
    (_score : Int) (attempt_count : Nat) (weak_prereqs : List PrereqEntry)
    (now : String) : Except String Graph :=
  if passed then
    callUpdateNodeStatus g topic "green" now ["kg"]
  else if attempt_count ≥ 3 then
    callUpdateNodeStatus g topic "red" now ["kg"]
  else
    match weak_prereqs with
    | w :: _ => do
      let g1 ← callUpdateNodeStatus g topic "orange" now ["kg"]
      callUpdateNodeStatus g1 w.name "red" now ["kg"]
    | [] =>
      callUpdateNodeStatus g topic "yellow" now ["kg"]

/-- The per-student Letta memory visible to `give_feedback`: the archival
event log (append-only) and the core-memory JSON dict restricted to the
keys the method touches (list-valued `mastered_concepts_*` keys and
string-valued keys such as `current_topic`). -/
structure LettaStore where
  archival    : List EventRecord
  coreLists   : List (String × List String)
  coreStrings : List (String × String)
  deriving DecidableEq, Repr

/-- `core.get(key, [])` on the list-valued core-memory keys. -/
def coreGetList (m : LettaStore) (key : String) : List String :=
  match m.coreLists.find? (fun e => e.1 == key) with
  | some e => e.2
  | none => []

/-- `update_core_memory` on a list-valued key. -/
def coreSetList (m : LettaStore) (key : String) (v : List String) : LettaStore :=
  { m with coreLists := (key, v) :: m.coreLists.filter (fun e => e.1 != key) }

/-- `update_core_memory` on a string-valued key. -/
def coreSetString (m : LettaStore) (key v : String) : LettaStore :=
  { m with coreStrings := (key, v) :: m.coreStrings.filter (fun e => e.1 != key) }

/-- `LettaClient.write_archival_memory`: append one record. -/
def writeArchival (m : LettaStore) (r : EventRecord) : LettaStore :=
  { m with archival := m.archival ++ [r] }

/-- The mutable state `give_feedback` touches: the curriculum graph and
the student's Letta memory. -/
structure TutorEnv where
  graph : Graph
  letta : LettaStore
  deriving DecidableEq, Repr

/-- The dict `give_feedback` returns. -/
structure FeedbackResult where
  feedback_text  : String
  what_was_right : List String
  what_was_wrong : List String
  root_cause     : Option String
  next_action    : String
  re_teach_focus : Option String
  score          : Int
  passed         : Bool
  deriving DecidableEq, Repr

/-- `FeedbackAgent.give_feedback(student_id, concept, question,
student_answer, assessment_result, kg)` (lines 64-212), with the external
collaborators passed explicitly: `mistakeSearch` is what the Letta
semantic search returns, `llmFeedback` the generated feedback prose,
`now` the wall clock.  Every step of the method body is translated in
order; the two `neo4j` calls that pass `kg=kg` go through the CPython
keyword-binding check. -/
def give_feedback (env : TutorEnv) (mistakeSearch : List EventRecord)
    (llmFeedback : String) (now : String)
    (_student_id concept _question _student_answer : String)
    (ar : AssessmentResult) (kg : String) :
    Except String (FeedbackResult × TutorEnv) := do
  let score := ar.score
  let passed := ar.passed
  let misconception := ar.misconception
  -- line 91: matched_topic = self.neo4j.map_concept_to_topic(concept, kg=kg)
  let matched_topic ← callMapConceptToTopic env.graph concept ["kg"]
  let topic_to_use := matched_topic.getD concept
  -- lines 94-96
  let mistake_history := get_mistake_history mistakeSearch concept
  let attempt_count := mistake_history.length + 1
  -- lines 98-103
  let prereq_chain := get_prerequisite_chain_for_feedback env.graph topic_to_use
  let weak_prereqs := weakPrereqsOf prereq_chain
  -- steps 3-5 (RAG retrieval, prompt build, LLM call) produce prose only
  let feedback_text := llmFeedback
  -- step 6
  let next_action := decideNextAction score passed attempt_count weak_prereqs
  -- step 7
  let re_teach_focus :=
    if next_action == "re_teach" then
      some (chooseReTeachFocus weak_prereqs misconception concept)
    else none
  -- step 8: one feedback_given record, synchronously
  let letta1 := writeArchival env.letta
    { type := "feedback_given", concept := concept, passed := some passed,
      score := some score, topic := some topic_to_use,
      misconception := some misconception, root_cause := re_teach_focus,
      attempt_number := some attempt_count, next_action := some next_action,
      kg := some kg }
  -- step 9
  let graph1 ← update_kg_node env.graph topic_to_use passed score
    attempt_count weak_prereqs now
  -- step 10
  let letta2 :=
    if passed then
      let kg_key := "mastered_concepts_" ++ kg
      let mastered := coreGetList letta1 kg_key
      let letta' :=
        if topic_to_use ∈ mastered then letta1
        else coreSetString (coreSetList letta1 kg_key (mastered ++ [topic_to_use]))
          "current_topic" topic_to_use
      let next_topic := get_next_recommended_topic (some graph1)
      if !next_topic.isEmpty then coreSetString letta' "current_topic" next_topic
      else letta'
    else letta1
  Except.ok
    ({ feedback_text := feedback_text, what_was_right := ar.what_was_right,
       what_was_wrong := ar.what_was_wrong, root_cause := re_teach_focus,
       next_action := next_action, re_teach_focus := re_teach_focus,
       score := score, passed := passed },
     { graph := graph1, letta := letta2 })

/-! ## `Orchestrator._classify` (src/agents/orchestrator.py:256-340) -/

/-- The transient pending-followup slot: `pending_concept`,
`pending_message`, `pending_intent` (orchestrator fields, lines 198-200). -/
structure PendingState where
  concept : Option String
  message : Option String
  intent  : Option String
  deriving DecidableEq, Repr

/-- All three pending fields `None`. -/
def emptyPending : PendingState := ⟨none, none, none⟩

/-- The generative-model answers `_classify` may request; each may raise
(`Except.error`). -/
structure ClassifierOracles where
  followup      : Except Unit String
  isTechnical   : Except Unit String
  isRecommender : Except Unit String

/-- What `_classify` produces: the routed intent, the updated `concept`
and `message` state fields, and the pending slot after the call. -/
structure ClassifyOutcome where
  intent  : String
  concept : String
  message : String
  pending : PendingState
  deriving DecidableEq, Repr

/-- The fixed explicit-assessment phrase list (lines 260-266). -/
def assessmentWords : List String :=
  ["test me", "quiz me", "assess me", "give me a question",
   "practice question", "test my", "test on", "quiz on",
   "want to test", "want to be tested", "test my understanding",
   "test on my", "i want to test", "assess my", "check my understanding",
   "check my knowledge", "practice on", "want to practice"]

/-- The phrase `whats up` with an apostrophe after `what` (code point 39),
which cannot appear in a plain string literal here. -/
def whatsUpApos : String :=
  String.mk ['w', 'h', 'a', 't', Char.ofNat 39, 's', ' ', 'u', 'p']

/-- The fixed casual phrase list (lines 305-311); the 13th entry is the
apostrophised `whats up`. -/
def casualWords : List String :=
  ["hi", "hello", "hey", "how are you", "what do you do",
   "who are you", "thanks", "thank you", "good morning",
   "good evening", "bye", "goodbye", whatsUpApos, "whats up",
   "ok", "okay", "cool", "nice", "great", "awesome",
   "that makes sense", "got it", "i see", "what can you do"]

/-- Steps 3-6 of `_classify`: casual-phrase match, then the two
generative-model classifiers with their fail-open defaults (`YES` for
is-technical, `NO` for is-recommender).  The pending slot `p` is passed
through untouched. -/
def classifyRest (msgRaw message : String) (p : PendingState)
    (o : ClassifierOracles) : ClassifyOutcome :=
  if casualWords.any (fun w => message == w || pyStartsWith message (w ++ " ")) then
    ⟨"chat", "", msgRaw, p⟩
  else
    let is_technical :=
      match o.isTechnical with
      | Except.ok s => pyUpper (pyStrip s)
      | Except.error _ => "YES"
    if !pyStartsWith is_technical "YES" then ⟨"chat", "", msgRaw, p⟩
    else
      let is_recommender :=
        match o.isRecommender with
        | Except.ok s => pyUpper (pyStrip s)
        | Except.error _ => "NO"
      if pyStartsWith is_recommender "YES" then ⟨"brief_recommend", "", msgRaw, p⟩
      else ⟨"brief", "", msgRaw, p⟩

/-- The `pending_message or state["message"]` fallback of line 283. -/
def pendingMessageOr (p : PendingState) (msgRaw : String) : String :=
  match p.message with
  | some s => if s.isEmpty then msgRaw else s
  | none => msgRaw

/-- `Orchestrator._classify(state)`: explicit-assessment match (clears
pending), pending-followup resolution via the generative yes/no
classifier (any non-YES answer and any classifier failure clear pending
and fall through), then `classifyRest`. -/
def classify (msgRaw : String) (p : PendingState) (o : ClassifierOracles) :
    ClassifyOutcome :=
  let message := pyLower (pyStrip msgRaw)
  if assessmentWords.any (fun w => pyContains message w) then
    ⟨"assessment", "", msgRaw, emptyPending⟩
  else if pyTruthy p.concept && pyTruthy p.intent then
    match o.followup with
    | Except.error _ => classifyRest msgRaw message emptyPending o
    | Except.ok ans =>
      if pyStartsWith (pyUpper (pyStrip ans)) "YES" then
        ⟨p.intent.getD "", p.concept.getD "", pendingMessageOr p msgRaw,
         emptyPending⟩
      else classifyRest msgRaw message emptyPending o
  else classifyRest msgRaw message p o

end Mosaic

/-! # Theorems -/

namespace Mosaic

/-- **C1.** The feedback decision function follows the priority-ordered
table: `passed ∧ score ≥ 90 → advance`; else `passed ∧ score ≥ 70 →
practice_more`; and whenever `¬passed`, `re_teach` — including the three
concrete instances `decide(95, true, 1, []) = advance`,
`decide(80, true, 1, []) = practice_more`, and
`decide(40, false, n, ws) = re_teach` for every `n` and `ws`. -/
theorem decideNextAction_table (score : Int) (n : Nat) (ws : List PrereqEntry) :
    (score ≥ 90 → decideNextAction score true n ws = "advance") ∧
    (70 ≤ score → score < 90 → decideNextAction score true n ws = "practice_more") ∧
    (decideNextAction score false n ws = "re_teach") ∧
    decideNextAction 95 true 1 [] = "advance" ∧
    decideNextAction 80 true 1 [] = "practice_more" ∧
    decideNextAction 40 false n ws = "re_teach" := by
  refine ⟨fun h90 => ?_, fun h70 h90 => ?_, ?_, by decide, by decide, ?_⟩
  · simp [decideNextAction, h90]
  · simp [decideNextAction, h70, not_le.mpr h90]
  · simp [decideNextAction]
  · simp [decideNextAction]

/-- Witness for `decideNextAction_table` at `score = 80`, `n = 2`,
`ws = []`: the hypotheses of the second conjunct hold and the decision is
`practice_more`. -/
theorem decideNextAction_table_witness :
    (70 : Int) ≤ 80 ∧ (80 : Int) < 90 ∧
    decideNextAction 80 true 2 [] = "practice_more" :=
  ⟨by decide, by decide, (decideNextAction_table 80 2 []).2.1 (by decide) (by decide)⟩

/-- Every node of the curriculum model matches `(n:Topic OR n:Technique)`. -/
theorem isTopicOrTechnique_true (n : KGNode) : isTopicOrTechnique n = true := by
  cases h : n.label <;> simp [isTopicOrTechnique, h]

/-- **C3.** The `mastered_at` latch of `update_node_status` (the
engine's `setStatus`), for any node in the FODS curriculum KG, writing
status `green` (= `mastered`) at time `now`: the first mastery write sets
`mastered_at := now`; a later mastery write (when the node is already
green with `mastered_at = t`) changes `updated_at` only; and a
non-`green` write updates `status` and `updated_at` but never sets or
clears `mastered_at`. -/
theorem update_node_status_latch (n : KGNode) (now t s : String)
    (hfods : inFods n = true) :
    (n.mastered_at = none →
      updateNodeStatusNode n.name "green" now n =
        { n with status := some "green", mastered_at := some now,
                 updated_at := some now }) ∧
    (n.mastered_at = some t →
      updateNodeStatusNode n.name "green" now n =
        { n with status := some "green", updated_at := some now }) ∧
    (n.status = some "green" → n.mastered_at = some t →
      updateNodeStatusNode n.name "green" now n = { n with updated_at := some now }) ∧
    (s ≠ "green" →
      updateNodeStatusNode n.name s now n =
        { n with status := some s, updated_at := some now }) := by
  obtain ⟨name, label, status, mastered, updated, kgf⟩ := n
  have hlab : isTopicOrTechnique ⟨name, label, status, mastered, updated, kgf⟩ = true :=
    isTopicOrTechnique_true _
  refine ⟨fun hm => ?_, fun hm => ?_, fun hs hm => ?_, fun hs => ?_⟩ <;>
    simp_all [updateNodeStatusNode]

/-- Witness for `update_node_status_latch`: a grey FODS topic `PCA` with
no `mastered_at`; the first green write stamps all three fields with the
clock value. -/
theorem update_node_status_latch_witness :
    inFods ⟨"PCA", NodeLabel.topic, some "grey", none, none, none⟩ = true ∧
    updateNodeStatusNode "PCA" "green" "2026-02-03T00:00:00+00:00"
        ⟨"PCA", NodeLabel.topic, some "grey", none, none, none⟩ =
      ⟨"PCA", NodeLabel.topic, some "green", some "2026-02-03T00:00:00+00:00",
       some "2026-02-03T00:00:00+00:00", none⟩ :=
  ⟨rfl,
    (update_node_status_latch ⟨"PCA", NodeLabel.topic, some "grey", none, none, none⟩
      "2026-02-03T00:00:00+00:00" "x" "red" rfl).1 rfl⟩

/-! ### Bulk backfill lemmas (`sync_mastery_from_letta`) -/

/-- `syncNode` never changes a node's name. -/
theorem syncNode_name (m : String) (n : KGNode) : (syncNode m n).name = n.name := by
  unfold syncNode; split <;> rfl

/-- `syncNode` never changes a node's `kg` property. -/
theorem syncNode_kg (m : String) (n : KGNode) : (syncNode m n).kg = n.kg := by
  unfold syncNode; split <;> rfl

/-- A green node is untouched by one backfill query. -/
theorem syncNode_of_green (m : String) (n : KGNode)
    (h : coalesce n.status "grey" = "green") : syncNode m n = n := by
  unfold syncNode
  split
  · next hg =>
    simp only [Bool.and_eq_true, bne_iff_ne] at hg
    exact absurd h hg.2
  · rfl

/-- `syncFold` over any name list, when it starts (or becomes) green. -/
theorem syncFold_of_green (names : List String) (n : KGNode)
    (h : coalesce n.status "grey" = "green") : syncFold names n = n := by
  induction names with
  | nil => rfl
  | cons m rest ih =>
    show syncFold rest (syncNode m n) = n
    rw [syncNode_of_green m n h]
    exact ih

/-- `syncFold` never changes a node's name. -/
theorem syncFold_name (names : List String) (n : KGNode) :
    (syncFold names n).name = n.name := by
  induction names generalizing n with
  | nil => rfl
  | cons m rest ih =>
    show (syncFold rest (syncNode m n)).name = n.name
    rw [ih, syncNode_name]

/-- `syncFold` never changes a node's `kg` property. -/
theorem syncFold_kg (names : List String) (n : KGNode) :
    (syncFold names n).kg = n.kg := by
  induction names generalizing n with
  | nil => rfl
  | cons m rest ih =>
    show (syncFold rest (syncNode m n)).kg = n.kg
    rw [ih, syncNode_kg]

/-- A node not named `m` is untouched by the backfill query for `m`. -/
theorem syncNode_of_name_ne (m : String) (n : KGNode) (h : n.name ≠ m) :
    syncNode m n = n := by
  unfold syncNode
  rw [if_neg]
  simp [h]

/-- A node outside the FODS KG is untouched by a backfill query. -/
theorem syncNode_of_not_fods (m : String) (n : KGNode) (h : inFods n = false) :
    syncNode m n = n := by
  unfold syncNode
  rw [if_neg]
  simp [h]

/-- FODS membership is invariant under a backfill pass. -/
theorem inFods_syncFold (names : List String) (n : KGNode) :
    inFods (syncFold names n) = inFods n := by
  unfold inFods coalesce
  rw [syncFold_kg]

/-- Applying the backfill query for `m` again after a whole pass that
began with it is a no-op. -/
theorem syncNode_syncFold_absorb (m : String) (rest : List String) (n : KGNode) :
    syncNode m (syncFold rest (syncNode m n)) = syncFold rest (syncNode m n) := by
  by_cases hname : n.name = m
  · by_cases hfods : inFods n = true
    · by_cases hgreen : coalesce n.status "grey" = "green"
      · rw [syncNode_of_green m n hgreen, syncFold_of_green rest n hgreen]
        exact syncNode_of_green m n hgreen
      · have hfire : coalesce (syncNode m n).status "grey" = "green" := by
          unfold syncNode
          rw [if_pos]
          · rfl
          · simp [isTopicOrTechnique_true, hname, hfods, bne_iff_ne, hgreen]
        rw [syncFold_of_green rest _ hfire]
        exact syncNode_of_green m _ hfire
    · have hf : inFods n = false := by
        cases hc : inFods n
        · rfl
        · exact absurd hc hfods
      rw [syncNode_of_not_fods m n hf]
      exact syncNode_of_not_fods m _ ((inFods_syncFold rest n).trans hf)
  · rw [syncNode_of_name_ne m n hname]
    exact syncNode_of_name_ne m _ ((syncFold_name rest n).symm ▸ hname)

/-- Idempotence of a backfill pass on a single node. -/
theorem syncFold_idem (names : List String) (n : KGNode) :
    syncFold names (syncFold names n) = syncFold names n := by
  induction names generalizing n with
  | nil => rfl
  | cons m rest ih =>
    show syncFold rest (syncNode m (syncFold rest (syncNode m n))) =
      syncFold rest (syncNode m n)
    rw [syncNode_syncFold_absorb]
    exact ih (syncNode m n)

/-- The backfill loop acts node-wise: each query touches only nodes of
its own name, so the loop is the per-node fold mapped over the graph. -/
theorem sync_mastery_from_letta_eq (g : Graph) (names : List String) :
    sync_mastery_from_letta g names = ⟨g.nodes.map (syncFold names), g.prereqs⟩ := by
  induction names generalizing g with
  | nil =>
    cases g
    simp only [sync_mastery_from_letta, List.foldl_nil, Graph.mk.injEq, and_true]
    exact (List.map_id _).symm.trans (List.map_congr_left fun n _ => rfl)
  | cons m rest ih =>
    show sync_mastery_from_letta (syncStep g m) rest = _
    rw [ih]
    simp [syncStep, List.map_map, syncFold, Function.comp_def]

/-- A node named in the list, in the FODS KG and not yet green, gets the
full green/sentinel stamp from one backfill pass. -/
theorem syncFold_upgrades (names : List String) (n : KGNode)
    (hmem : n.name ∈ names) (hfods : inFods n = true)
    (hng : coalesce n.status "grey" ≠ "green") :
    syncFold names n =
      { n with status := some "green", mastered_at := some lettaSentinel,
               updated_at := some lettaSentinel } := by
  induction names with
  | nil => cases hmem
  | cons m rest ih =>
    show syncFold rest (syncNode m n) = _
    by_cases he : n.name = m
    · have hfire : syncNode m n =
          { n with status := some "green", mastered_at := some lettaSentinel,
                   updated_at := some lettaSentinel } := by
        unfold syncNode
        rw [if_pos]
        simp [isTopicOrTechnique_true, he, hfods, bne_iff_ne, hng]
      rw [hfire]
      exact syncFold_of_green rest _ rfl
    · rw [syncNode_of_name_ne m n he]
      rcases List.mem_cons.mp hmem with h | h
      · exact absurd h he
      · exact ih h

/-- A node whose name is not in the list is untouched by the backfill. -/
theorem syncFold_not_mem (names : List String) (n : KGNode)
    (hmem : n.name ∉ names) : syncFold names n = n := by
  induction names with
  | nil => rfl
  | cons m rest ih =>
    show syncFold rest (syncNode m n) = n
    have hne : n.name ≠ m := fun hc => hmem (hc ▸ List.mem_cons_self m rest)
    rw [syncNode_of_name_ne m n hne]
    exact ih (fun hc => hmem (List.mem_cons_of_mem m hc))

/-- **C7 (amended).** `sync_mastery_from_letta(names)`: already-green
nodes are never touched (no downgrade or re-stamp); a named FODS node
that is not yet green is set `green` with `status`, `mastered_at` and
`updated_at` all stamped with the fixed sentinel timestamp
`2000-01-01T00:00:00+00:00` (there is no caller-supplied timestamp, and
any pre-existing `mastered_at` on such a node is overwritten with the
sentinel); unnamed nodes are untouched; and the backfill is idempotent. -/
theorem sync_mastery_backfill (g : Graph) (names : List String) (n : KGNode) :
    (coalesce n.status "grey" = "green" → syncFold names n = n) ∧
    (n.name ∈ names → inFods n = true → coalesce n.status "grey" ≠ "green" →
      syncFold names n =
        { n with status := some "green", mastered_at := some lettaSentinel,
                 updated_at := some lettaSentinel }) ∧
    (n.name ∉ names → syncFold names n = n) ∧
    (sync_mastery_from_letta g names = ⟨g.nodes.map (syncFold names), g.prereqs⟩) ∧
    (sync_mastery_from_letta (sync_mastery_from_letta g names) names =
      sync_mastery_from_letta g names) := by
  refine ⟨syncFold_of_green names n, syncFold_upgrades names n,
    syncFold_not_mem names n, sync_mastery_from_letta_eq g names, ?_⟩
  rw [sync_mastery_from_letta_eq g names,
    sync_mastery_from_letta_eq ⟨g.nodes.map (syncFold names), g.prereqs⟩ names]
  simp only [List.map_map, Graph.mk.injEq, and_true]
  refine List.map_congr_left fun n _ => ?_
  exact syncFold_idem names n

/-- Witness for `sync_mastery_backfill`: a grey FODS topic `A` named in
the backfill list gets the green/sentinel stamp. -/
theorem sync_mastery_backfill_witness :
    ("A" ∈ ["A"]) ∧
    inFods ⟨"A", NodeLabel.topic, some "grey", none, none, none⟩ = true ∧
    coalesce (some "grey") "grey" ≠ "green" ∧
    syncFold ["A"] ⟨"A", NodeLabel.topic, some "grey", none, none, none⟩ =
      ⟨"A", NodeLabel.topic, some "green", some lettaSentinel,
       some lettaSentinel, none⟩ :=
  ⟨by decide, rfl, by decide,
    (sync_mastery_backfill ⟨[], []⟩ ["A"]
      ⟨"A", NodeLabel.topic, some "grey", none, none, none⟩).2.1
      (by decide) rfl (by decide)⟩

/-- **C7 counterexample.** A FODS topic `Arrays` that regressed to `red`
after being mastered on 2020-05-01 still carries that historical
`mastered_at`; backfilling `["Arrays"]` overwrites it with the sentinel
`2000-01-01T00:00:00+00:00`, so the claim that the backfill "never
overwrites an existing mastered_at" is false (and the stamp is the fixed
sentinel, not a caller-supplied timestamp — the method takes none). -/
theorem sync_mastery_overwrite_cex :
    (sync_mastery_from_letta
        ⟨[⟨"Arrays", NodeLabel.topic, some "red",
           some "2020-05-01T00:00:00+00:00",
           some "2020-06-01T00:00:00+00:00", none⟩], []⟩
        ["Arrays"]).nodes.map KGNode.mastered_at =
      [some "2000-01-01T00:00:00+00:00"] ∧
    ("2000-01-01T00:00:00+00:00" : String) ≠ "2020-05-01T00:00:00+00:00" :=
  ⟨rfl, by decide⟩

/-! ### Lexicographic order lemmas (`ORDER BY t.name`) -/

/-- `listLe` is reflexive. -/
theorem listLe_refl (a : List Char) : listLe a a = true := by
  induction a with
  | nil => rfl
  | cons x xs ih => simp [listLe, ih]

/-- `listLe` is total. -/
theorem listLe_total (a b : List Char) : listLe a b = true ∨ listLe b a = true := by
  induction a generalizing b with
  | nil => left; rfl
  | cons x xs ih =>
    cases b with
    | nil => right; rfl
    | cons y ys =>
      rcases Nat.lt_trichotomy x.toNat y.toNat with h | h | h
      · left; simp [listLe, h]
      · rcases ih ys with h2 | h2
        · left; simp [listLe, h, h2]
        · right; simp [listLe, h.symm, h2]
      · right; simp [listLe, h]

/-- `listLe` is transitive. -/
theorem listLe_trans (a b c : List Char) (hab : listLe a b = true)
    (hbc : listLe b c = true) : listLe a c = true := by
  induction a generalizing b c with
  | nil => rfl
  | cons x xs ih =>
    cases b with
    | nil => simp [listLe] at hab
    | cons y ys =>
      cases c with
      | nil => simp [listLe] at hbc
      | cons z zs =>
        simp only [listLe] at hab hbc ⊢
        split_ifs at hab hbc ⊢ <;>
          first
          | rfl
          | omega
          | (exact ih ys zs hab hbc)

/-- `minName?` returns `none` exactly on the empty list. -/
theorem minName?_eq_none (l : List String) : minName? l = none ↔ l = [] := by
  cases l with
  | nil => simp [minName?]
  | cons s rest => simp [minName?]

/-- The value `minName?` returns is a member of the list and a `strLe`
lower bound of it. -/
theorem minName?_spec (l : List String) (m : String) (h : minName? l = some m) :
    m ∈ l ∧ ∀ c ∈ l, strLe m c = true := by
  induction l generalizing m with
  | nil => cases h
  | cons s rest ih =>
    cases hr : minName? rest with
    | none =>
      rw [(minName?_eq_none rest).mp hr]
      simp only [minName?, hr, Option.some.injEq] at h
      subst h
      exact ⟨List.mem_singleton.mpr rfl, by
        intro c hc
        rw [List.mem_singleton.mp hc]
        exact listLe_refl _⟩
    | some mr =>
      obtain ⟨hmem, hle⟩ := ih mr hr
      simp only [minName?, hr, Option.some.injEq] at h
      by_cases hs : strLe s mr = true
      · rw [if_pos hs] at h
        obtain rfl := h
        refine ⟨List.mem_cons_self _ _, fun c hc => ?_⟩
        rcases List.mem_cons.mp hc with rfl | hc
        · exact listLe_refl _
        · exact listLe_trans _ _ _ hs (hle c hc)
      · rw [if_neg hs] at h
        obtain rfl := h
        refine ⟨List.mem_cons_of_mem _ hmem, fun c hc => ?_⟩
        rcases List.mem_cons.mp hc with rfl | hc
        · rcases listLe_total mr.data c.data with h2 | h2
          · exact h2
          · exact absurd h2 hs
        · exact hle c hc

/-- **C8.** `get_next_recommended_topic()`: a failed store read (`none`)
yields the documented default; when no topic matches the query (empty or
fully-mastered curriculum) the default is returned; otherwise the result
is a matched topic name and a `strLe`-lower bound of every matched name,
i.e. the lexicographically first non-green FODS topic all of whose direct
Topic prerequisites are green.  The final conjunct characterises the
query filter in those terms. -/
theorem get_next_recommended_topic_spec (g : Graph) (c : String) :
    get_next_recommended_topic none = defaultTopic ∧
    (candidateNames g = [] → get_next_recommended_topic (some g) = defaultTopic) ∧
    (c ∈ candidateNames g →
      get_next_recommended_topic (some g) ∈ candidateNames g ∧
      strLe (get_next_recommended_topic (some g)) c = true) ∧
    (∀ n ∈ g.nodes, isRecommendCandidate g n = true ↔
      (n.label = NodeLabel.topic ∧ inFods n = true ∧
       coalesce n.status "grey" ≠ "green" ∧
       ∀ e ∈ g.prereqs, e.1 = n.name →
         ∀ m ∈ g.nodes, m.name = e.2 → m.label = NodeLabel.topic →
           coalesce m.status "grey" = "green")) := by
  refine ⟨rfl, fun he => ?_, fun hc => ?_, fun n _ => ?_⟩
  · simp [get_next_recommended_topic, he, minName?]
  · cases hm : minName? (candidateNames g) with
    | none =>
      rw [(minName?_eq_none _).mp hm] at hc
      cases hc
    | some m =>
      obtain ⟨hmem, hle⟩ := minName?_spec _ m hm
      simpa [get_next_recommended_topic, hm] using ⟨hmem, hle c hc⟩
  · simp only [isRecommendCandidate, hasWeakDirectPrereq, Bool.and_eq_true,
      beq_iff_eq, bne_iff_ne, Bool.not_eq_true', List.any_eq_false,
      Bool.and_eq_true, List.any_eq_true, not_exists, Bool.not_eq_true,
      List.any_eq_false, not_and]
    constructor
    · rintro ⟨⟨⟨hl, hf⟩, hng⟩, hw⟩
      exact ⟨hl, hf, hng, fun e he h1 m hm h2 h3 =>
        not_not.mp (hw e he h1 m hm ⟨h2, h3⟩)⟩
    · rintro ⟨hl, hf, hng, hall⟩
      exact ⟨⟨⟨hl, hf⟩, hng⟩, fun e he h1 m hm hml =>
        not_not.mpr (hall e he h1 m hm hml.1 hml.2)⟩

/-- Witness for `get_next_recommended_topic_spec`: a curriculum with two
grey topics and no edges recommends the lexicographically smaller name
`Arrays`; a fully-mastered one-topic curriculum falls back to the
default. -/
theorem get_next_recommended_topic_spec_witness :
    ("Pandas" ∈ candidateNames
      ⟨[⟨"Pandas", NodeLabel.topic, some "grey", none, none, none⟩,
        ⟨"Arrays", NodeLabel.topic, none, none, none, none⟩], []⟩) ∧
    get_next_recommended_topic (some
      ⟨[⟨"Pandas", NodeLabel.topic, some "grey", none, none, none⟩,
        ⟨"Arrays", NodeLabel.topic, none, none, none, none⟩], []⟩) = "Arrays" ∧
    (candidateNames
      ⟨[⟨"Done", NodeLabel.topic, some "green", none, none, none⟩], []⟩ = []) ∧
    get_next_recommended_topic (some
      ⟨[⟨"Done", NodeLabel.topic, some "green", none, none, none⟩], []⟩) =
      "Python for Data Science" := by
  refine ⟨by decide, ?_, rfl, ?_⟩
  · have h := ((get_next_recommended_topic_spec
      ⟨[⟨"Pandas", NodeLabel.topic, some "grey", none, none, none⟩,
        ⟨"Arrays", NodeLabel.topic, none, none, none, none⟩], []⟩ "Pandas").2.2.1
      (by decide)).1
    revert h
    decide
  · exact (get_next_recommended_topic_spec
      ⟨[⟨"Done", NodeLabel.topic, some "green", none, none, none⟩], []⟩ "x").2.1 rfl

/-! ### Attempt counting (C4) -/

/-- `not r.get("passed", True)` coincides with "`passed` is explicitly
`False`". -/
theorem not_getD_passed (o : Option Bool) : (!(o.getD true)) = (o == some false) := by
  cases o with
  | none => rfl
  | some b => cases b <;> rfl

/-- **C4 (amended).** The attempt number `give_feedback` uses is `1 +`
the number of retrieved records whose `concept` matches and whose
`passed` field is explicitly `False` — records of **any** event type
count, not only `feedback_given` ones; the claimed equality with the
count of prior failed `feedback_given` records holds only on logs
containing nothing but `feedback_given` records. -/
theorem attemptNumber_spec (results : List EventRecord) (concept : String) :
    attemptNumber results concept =
      1 + (results.filter fun r =>
        r.concept == concept && r.passed == some false).length ∧
    ((∀ r ∈ results, r.type = "feedback_given") →
      attemptNumber results concept =
        1 + (priorFailedFeedbackGiven results concept).length) := by
  have hbase : attemptNumber results concept =
      1 + (results.filter fun r =>
        r.concept == concept && r.passed == some false).length := by
    unfold attemptNumber get_mistake_history
    rw [Nat.add_comm]
    congr 2
    exact List.filter_congr fun r _ => by rw [not_getD_passed]
  refine ⟨hbase, fun hall => ?_⟩
  rw [hbase]
  congr 2
  refine (List.filter_congr fun r hr => ?_).symm
  simp only [hall r hr, beq_self_eq_true, Bool.true_and]

/-- Witness for `attemptNumber_spec`: a log holding exactly one failed
`feedback_given` record on `PCA` (anonymous-constructor field order:
type, concept, passed, score, topic, misconception, root_cause,
attempt_number, next_action, kg) gives attempt number 2 on `PCA`. -/
theorem attemptNumber_spec_witness :
    (∀ r ∈ [(⟨"feedback_given", "PCA", some false, some 40, none, none,
        none, none, none, none⟩ : EventRecord)], r.type = "feedback_given") ∧
    attemptNumber [⟨"feedback_given", "PCA", some false, some 40, none,
        none, none, none, none, none⟩] "PCA" = 2 := by
  have hall : ∀ r ∈ [(⟨"feedback_given", "PCA", some false, some 40, none,
      none, none, none, none, none⟩ : EventRecord)],
      r.type = "feedback_given" := by decide
  refine ⟨hall, ?_⟩
  rw [(attemptNumber_spec _ "PCA").2 hall]
  rfl

/-- **C4 counterexample.** A log with a single failed
`assessment_result` record on `PCA` (and no `feedback_given` record at
all): the code computes attempt number 2, while 1 + the count of prior
failed `feedback_given` records is 1 — the code does not restrict the
count to `feedback_given` records. -/
theorem attemptNumber_cex :
    attemptNumber [⟨"assessment_result", "PCA", some false, some 40, none,
        none, none, none, none, none⟩] "PCA" = 2 ∧
    1 + (priorFailedFeedbackGiven [⟨"assessment_result", "PCA", some false,
        some 40, none, none, none, none, none, none⟩] "PCA").length = 1 :=
  ⟨rfl, rfl⟩

/-! ### Re-teach focus (C5) -/

/-- **C5 counterexample.** A prerequisite chain whose single (hence
nearest) entry has status `yellow` — not mastered — with a non-empty
misconception: the claim picks the prerequisite name `Arrays`, but the
code's weak filter (`red/orange/grey/None` only) drops the yellow entry
and the focus falls to the misconception text instead. -/
theorem reTeachFocus_cex :
    (([⟨"Arrays", "yellow", 1⟩] : List PrereqEntry) =
      [⟨"Arrays", "yellow", 1⟩]) ∧
    ("yellow" : String) ≠ "green" ∧
    reTeachFocusOf [⟨"Arrays", "yellow", 1⟩] "mixes rows and columns" "PCA" =
      "mixes rows and columns" ∧
    ("mixes rows and columns" : String) ≠ "Arrays" :=
  ⟨rfl, by decide, rfl, by decide⟩

/-- **C5 (amended).** On a chain sorted by hop distance (as
`get_prerequisite_chain_for_feedback` returns it), the re-teach focus
is: the name of the nearest prerequisite whose status is in the code's
weak set `{red, orange, grey/unset}` when one exists; else the diagnosed
misconception when non-empty; else the concept itself. -/
theorem reTeachFocus_spec (chain : List PrereqEntry)
    (misconception concept : String)
    (hsorted : chain.Pairwise (fun a b => a.depth ≤ b.depth)) :
    (weakPrereqsOf chain = [] →
      reTeachFocusOf chain misconception concept =
        if !misconception.isEmpty then misconception else concept) ∧
    (∀ w rest, weakPrereqsOf chain = w :: rest →
      reTeachFocusOf chain misconception concept = w.name ∧
      weakStatusFilter w.status = true ∧ w ∈ chain ∧
      ∀ p ∈ chain, weakStatusFilter p.status = true → w.depth ≤ p.depth) := by
  constructor
  · intro h
    unfold reTeachFocusOf chooseReTeachFocus
    rw [h]
  · intro w rest h
    have hmemw : w ∈ weakPrereqsOf chain := h ▸ List.mem_cons_self w rest
    have hw := List.mem_filter.mp hmemw
    refine ⟨?_, hw.2, hw.1, ?_⟩
    · unfold reTeachFocusOf chooseReTeachFocus
      rw [h]
    · intro p hp hpw
      have hpmem : p ∈ weakPrereqsOf chain := List.mem_filter.mpr ⟨hp, hpw⟩
      have hpair : (weakPrereqsOf chain).Pairwise (fun a b => a.depth ≤ b.depth) :=
        hsorted.filter _
      rw [h] at hpmem hpair
      rcases List.mem_cons.mp hpmem with rfl | hpr
      · exact le_refl _
      · exact (List.pairwise_cons.mp hpair).1 p hpr

/-- Witness for `reTeachFocus_spec`: a depth-sorted chain whose nearest
entry `Arrays` is `red`; the focus is `Arrays`. -/
theorem reTeachFocus_spec_witness :
    (([⟨"Arrays", "red", 1⟩, ⟨"Python", "grey", 2⟩] :
        List PrereqEntry).Pairwise fun a b => a.depth ≤ b.depth) ∧
    reTeachFocusOf [⟨"Arrays", "red", 1⟩, ⟨"Python", "grey", 2⟩] "" "PCA" =
      "Arrays" := by
  have hs : ([⟨"Arrays", "red", 1⟩, ⟨"Python", "grey", 2⟩] :
      List PrereqEntry).Pairwise (fun a b => a.depth ≤ b.depth) := by
    simp
  exact ⟨hs, ((reTeachFocus_spec _ "" "PCA" hs).2 ⟨"Arrays", "red", 1⟩
    [⟨"Python", "grey", 2⟩] rfl).1⟩

/-! ### Store write failures (C9) -/

/-- **C9 counterexample.** A status write whose underlying query raises:
the caller-visible return value of `query` on the failing store equals
the one on a healthy store that matched no rows, and the caller of
`update_node_status` observes exactly the same value (`None`) as on a
successful write — the failure is caught inside `query`, printed, and
otherwise swallowed, so no retryable/alertable error reaches the caller. -/
theorem query_failure_swallowed_cex :
    (query Driver.failing).rows = (query (Driver.healthy [])).rows ∧
    (updateNodeStatusRun Driver.failing).1 =
      (updateNodeStatusRun (Driver.healthy [[("n", "PCA")]])).1 ∧
    query Driver.failing = ⟨[], ["Query error"]⟩ :=
  ⟨rfl, rfl, rfl⟩

/-- **C9 (amended).** A failed graph-store status write is handled
fail-soft, exactly like a read: `Neo4jClient.query` catches the
exception, prints one log line, and returns the empty list; the caller
of `update_node_status` receives the same value as for any successful
write, so the failure is logged to stdout but not surfaced to the caller
as an error (and a missing driver behaves the same without even a log
line). -/
theorem query_write_failure_soft (rows : List (List (String × String))) :
    (query Driver.failing).rows = [] ∧
    (query Driver.failing).log = ["Query error"] ∧
    (updateNodeStatusRun Driver.failing).1 =
      (updateNodeStatusRun (Driver.healthy rows)).1 ∧
    (query Driver.missing).rows = [] ∧ (query Driver.missing).log = [] :=
  ⟨rfl, rfl, rfl, rfl, rfl⟩

/-! ### The `kg=` keyword bug (C2, C10) -/

/-- **C2 (code evaluated at the failing input).** Every call of
`_update_kg_node` — here the instance `topic = "PCA"`, `passed = True`,
`score = 95`, `attempt_count = 1`, `weak_prereqs = []` on any graph, and
every other branch — raises
`TypeError: update_node_status() got an unexpected keyword argument kg`
because each branch passes `kg=kg` to
`Neo4jClient.update_node_status(self, name, status)`; no status verdict
is ever written. -/
theorem update_kg_node_raises (g : Graph) (topic : String) (passed : Bool)
    (score : Int) (ac : Nat) (wp : List PrereqEntry) (now : String) :
    update_kg_node g topic passed score ac wp now =
      Except.error
        "TypeError: update_node_status() got an unexpected keyword argument kg" := by
  cases passed
  · by_cases h3 : ac ≥ 3
    · simp [update_kg_node, h3, callUpdateNodeStatus, checkKwargs]
    · cases wp with
      | nil => simp [update_kg_node, h3, callUpdateNodeStatus, checkKwargs]
      | cons w ws =>
        simp [update_kg_node, h3, callUpdateNodeStatus, checkKwargs,
          Bind.bind, Except.bind]
  · rfl

/-- **C10.** `FeedbackAgent.give_feedback` raises
`TypeError: map_concept_to_topic() got an unexpected keyword argument kg`
on every input, at its very first collaborator call (line 91) — before
the mistake history is read, before the decision is taken, before the
`feedback_given` record is persisted and before any status write — so
the public evaluate-and-give-feedback entry point never returns a
result. -/
theorem give_feedback_raises (env : TutorEnv) (ms : List EventRecord)
    (llm now sid concept q ans : String) (ar : AssessmentResult) (kg : String) :
    give_feedback env ms llm now sid concept q ans ar kg =
      Except.error
        "TypeError: map_concept_to_topic() got an unexpected keyword argument kg" :=
  rfl

/-! ### Pending-followup resolution (C6) -/

/-- **C6 counterexample.** With a pending followup set: (1) on the
ambiguous message `maybe later` (the yes/no classifier returns neither a
YES nor a NO phrase), `_classify` **clears** the pending slot instead of
leaving it untouched; (2) on the negative `no thanks` (classifier answers
`NO`), the result is the normal-classification intent `brief`, not a
direct `casual`/`chat` reply. -/
theorem classify_pending_cex :
    (classify "maybe later" ⟨some "PCA", some "orig question", some "solver"⟩
      ⟨Except.ok "UNSURE", Except.ok "YES", Except.ok "NO"⟩).pending =
      emptyPending ∧
    emptyPending ≠
      (⟨some "PCA", some "orig question", some "solver"⟩ : PendingState) ∧
    (classify "no thanks" ⟨some "PCA", some "orig question", some "solver"⟩
      ⟨Except.ok "NO", Except.ok "YES", Except.ok "NO"⟩).intent = "brief" ∧
    ("brief" : String) ≠ "chat" :=
  ⟨rfl, by decide, rfl, by decide⟩

/-- **C6 (amended).** For a message that is not an explicit assessment
phrase, with a pending followup set: a classifier answer starting with
`YES` resolves to the pending intent, concept and original message and
clears the slot; **any** other answer — negative or ambiguous — and any
classifier failure clear the slot and make the call behave exactly like
normal classification with no pending state (no direct casual result);
and with no pending state the call is normal classification, which is
total (an affirmative with nothing pending cannot error). -/
theorem classify_pending_spec (msgRaw : String) (p : PendingState)
    (o : ClassifierOracles) (ans : String)
    (hna : assessmentWords.any
      (fun w => pyContains (pyLower (pyStrip msgRaw)) w) = false)
    (hc : pyTruthy p.concept = true) (hi : pyTruthy p.intent = true) :
    (o.followup = Except.ok ans →
      pyStartsWith (pyUpper (pyStrip ans)) "YES" = true →
      classify msgRaw p o =
        ⟨p.intent.getD "", p.concept.getD "", pendingMessageOr p msgRaw,
         emptyPending⟩) ∧
    (o.followup = Except.ok ans →
      pyStartsWith (pyUpper (pyStrip ans)) "YES" = false →
      classify msgRaw p o = classify msgRaw emptyPending o) ∧
    (o.followup = Except.error () →
      classify msgRaw p o = classify msgRaw emptyPending o) ∧
    classify msgRaw emptyPending o =
      classifyRest msgRaw (pyLower (pyStrip msgRaw)) emptyPending o := by
  obtain ⟨fo, tech, rec⟩ := o
  have hep : classify msgRaw emptyPending ⟨fo, tech, rec⟩ =
      classifyRest msgRaw (pyLower (pyStrip msgRaw)) emptyPending
        ⟨fo, tech, rec⟩ := by
    simp [classify, hna, emptyPending, pyTruthy]
  refine ⟨fun hfo hyes => ?_, fun hfo hno => ?_, fun hfo => ?_, hep⟩
  · subst hfo
    simp [classify, hna, hc, hi, hyes]
  · subst hfo
    rw [hep]
    simp [classify, hna, hc, hi, hno]
  · subst hfo
    rw [hep]
    simp [classify, hna, hc, hi]

/-- Witness for `classify_pending_spec`: `yes` with pending
`{concept: PCA, target: solver}` resolves to the solver intent on `PCA`
with the stored original message, clearing the slot. -/
theorem classify_pending_spec_witness :
    classify "yes" ⟨some "PCA", some "orig question", some "solver"⟩
      ⟨Except.ok "yes", Except.ok "YES", Except.ok "NO"⟩ =
      ⟨"solver", "PCA", "orig question", emptyPending⟩ :=
  (classify_pending_spec "yes"
    ⟨some "PCA", some "orig question", some "solver"⟩
    ⟨Except.ok "yes", Except.ok "YES", Except.ok "NO"⟩ "yes"
    rfl rfl rfl).1 rfl rfl

end Mosaic
